import Mathlib

/-!
# Shallow embedding of the ai-subtitle-generator pipeline core

This file embeds, in Lean 4, the parts of the repository that the claims
concern: the translation stage (`src/translator.py`), the subtitle writer
(`src/subtitle_generator.py`) and the transcription dispatch and backends
(`src/audio_transcriber.py`).

Conventions of the embedding:
* Python dictionaries used as segment records are modelled by the `Segment`
  structure whose fields are `Option`-valued where the corresponding dict key
  may be absent.
* Python exceptions are modelled by the `PyErr` inductive; `raise X from e`
  is modelled by storing `e` as the `cause` of the raised error, mirroring
  the exception chaining done in the source.
* External engine invocations (the `ollama` subprocess, the whisper /
  faster-whisper model calls) are modelled as explicit function or data
  parameters, so that a run of a stage is a pure function of its inputs and
  of the engine behaviour.  Functions that would call the engine also return
  the number of engine invocations performed, which several claims are about.
* Python floats appearing in the claims (segment times, durations) are exact
  dyadic values, so they are modelled by `ℚ`; `int(...)` truncation is
  modelled by `pyInt`.
-/

/-- Python `int(x)` on a real-valued expression: truncation toward zero.
For the rationals arising in the claims the Python float computation is
exact, so truncation on `ℚ` coincides with Python's result. -/
def pyInt (q : ℚ) : ℤ :=
  if 0 ≤ q then ⌊q⌋ else -⌊-q⌋

/-- Python `str.isspace` / `str.strip` whitespace test, by code point
(the Unicode whitespace set used by CPython). -/
def pyIsSpace (c : Char) : Bool :=
  let n := c.toNat
  (9 ≤ n && n ≤ 13) || (28 ≤ n && n ≤ 31) || n == 32 || n == 0x85 ||
    n == 0xa0 || n == 0x1680 || (0x2000 ≤ n && n ≤ 0x200a) || n == 0x2028 ||
    n == 0x2029 || n == 0x202f || n == 0x205f || n == 0x3000

/-- Python `str.strip()` on a list of characters: drop whitespace from both
ends. -/
def pyStripL (l : List Char) : List Char :=
  ((l.dropWhile pyIsSpace).reverse.dropWhile pyIsSpace).reverse

/-- Python `str.strip()`. -/
def pyStrip (s : String) : String :=
  String.mk (pyStripL s.toList)

/-- The punctuation allow-list of `Translator.translate_with_ollama`
(`allowed_punct`).  In the Python source the literal parses as the
concatenation of two adjacent string literals and contains, as a set:
，(U+FF0C) 。(U+3002) ！(U+FF01) ？(U+FF1F) ：(U+FF1A) ；(U+FF1B)
、(U+3001) the ASCII double quote (U+0022) …(U+2026) —(U+2014) ·(U+00B7)
《(U+300A) 》(U+300B) 【(U+3010) 】(U+3011). -/
def allowedPunctCodes : List ℕ :=
  [0xff0c, 0x3002, 0xff01, 0xff1f, 0xff1a, 0xff1b, 0x3001, 0x22,
   0x2026, 0x2014, 0xb7, 0x300a, 0x300b, 0x3010, 0x3011]

/-- Membership of a character in the punctuation allow-list. -/
def isPunctChar (c : Char) : Bool :=
  allowedPunctCodes.contains c.toNat

/-- The character class of the sanitization regex
`[一-龥a-zA-Z0-9<allowed_punct>]`: CJK range U+4E00–U+9FA5, ASCII
letters, ASCII digits, and the punctuation allow-list. -/
def isAllowedChar (c : Char) : Bool :=
  let n := c.toNat
  (0x4e00 ≤ n && n ≤ 0x9fa5) || (0x61 ≤ n && n ≤ 0x7a) ||
    (0x41 ≤ n && n ≤ 0x5a) || (0x30 ≤ n && n ≤ 0x39) || isPunctChar c

/-- If the last remaining character is allow-list punctuation, drop it
(`if translated_text and translated_text[-1] in allowed_punct`). -/
def dropTrailingPunct (l : List Char) : List Char :=
  match l.getLast? with
  | some c => if isPunctChar c then l.dropLast else l
  | none => l

/-- The response sanitization of `Translator.translate_with_ollama`:
keep only characters of the allowed class (`re.findall` over the class,
then `join`, which is exactly a character filter), drop a trailing
allow-list punctuation character, then strip surrounding whitespace. -/
def sanitizeL (l : List Char) : List Char :=
  pyStripL (dropTrailingPunct (l.filter isAllowedChar))

/-- `sanitizeL` on strings. -/
def sanitize (s : String) : String :=
  String.mk (sanitizeL s.toList)

/-- Python exceptions relevant to the embedded code.  `runtimeErrorFrom`
models `raise RuntimeError(msg) from e` (exception chaining), `runtimeError`
a plain `raise RuntimeError(msg)`. -/
inductive PyErr where
  | valueError (msg : String)
  | runtimeErrorFrom (msg : String) (cause : PyErr)
  | runtimeError (msg : String)
  | moduleNotFoundError (msg : String)
  | fileNotFoundError (msg : String)
  | calledProcessError (msg : String)
  | keyError (msg : String)
deriving DecidableEq, Repr

/-- Python `str(e)` on the modelled exceptions. -/
def pyStrErr : PyErr → String
  | .valueError m => m
  | .runtimeErrorFrom m _ => m
  | .runtimeError m => m
  | .moduleNotFoundError m => m
  | .fileNotFoundError m => m
  | .calledProcessError m => m
  | .keyError m => m

/-- Root of an exception-cause chain: follows `from` causes. -/
def rootCause : PyErr → PyErr
  | .runtimeErrorFrom _ c => rootCause c
  | e => e

/-- Outcome of one `subprocess.run(["ollama", ...])` invocation:
captured stdout on success, or a `CalledProcessError` (non-zero exit). -/
inductive EngineOut where
  | ok (stdout : String)
  | procError (msg : String)
deriving DecidableEq, Repr

/-- A segment record, modelling the Python dicts flowing between stages.
Keys that may be absent (`text`, `original`, `translated`) are
`Option`-valued.  `endTime` models the key `"end"` (a Lean keyword). -/
structure Segment where
  start : ℚ
  endTime : ℚ
  text : Option String := none
  original : Option String := none
  translated : Option String := none
deriving DecidableEq, Repr

/-- The prompt built by `Translator.translate_with_ollama` from the retained
context string and the segment text. -/
def ollamaPrompt (context text : String) : String :=
  "你是一个专业的字幕翻译助手，负责将给出的视频内容翻译成中文，并保持原文的语气和风格。\n\n" ++
  "翻译规则：\n1. 输出格式：仅输出翻译结果，不要有任何前缀、后缀或额外说明\n" ++
  "2. 语言要求：只使用中文，禁止使用任何其他语言（包括英文、数字等）\n" ++
  "3. 标点符号：使用中文标点，句中标点保留，句末标点可省略\n" ++
  "4. 翻译风格：\n   - 保持原文的语气和风格\n   - 使用自然、流畅的中文表达\n" ++
  "   - 保持翻译的一致性\n   - 适合字幕阅读的简洁表达\n\n" ++
  context ++
  "\n\n下面是几个示例，请参考：\n原文：I want to test this program.\n翻译：我想测试这个程序\n\n" ++
  "原文：The weather is nice today, isn\x27t it?\n翻译：今天天气真不错\n\n" ++
  "原文：Please wait a moment.\n翻译：请稍等\n\n\n现在请翻译以下文本：\n" ++ text

/-- `Translator.translate_with_ollama(context, text)`, with the engine
(`subprocess.run` of `ollama run`) passed in as a function of the prompt.
Returns the outcome together with the number of engine invocations (0 or 1).
Mirrors the source: empty/blank text raises `ValueError` before any engine
call; a missing model name raises `RuntimeError`; a `CalledProcessError`
is re-raised unchanged; an empty engine response raises `RuntimeError`
which the catch-all wraps in another `RuntimeError`; otherwise the stripped
stdout is sanitized and returned. -/
def translateWithOllama (engine : String → EngineOut) (modelName : String)
    (context text : String) : Except PyErr String × ℕ :=
  if text = "" ∨ pyStrip text = "" then
    (.error (.valueError "输入文本为空"), 0)
  else if modelName = "" then
    (.error (.runtimeError "未指定Ollama模型名称"), 0)
  else
    match engine (ollamaPrompt context text) with
    | .procError m => (.error (.calledProcessError m), 1)
    | .ok stdout =>
      if stdout = "" ∨ pyStrip stdout = "" then
        let inner := PyErr.runtimeError "Ollama返回的翻译结果为空"
        (.error (.runtimeErrorFrom ("翻译过程中发生未知错误: " ++ pyStrErr inner) inner), 1)
      else
        (.ok (sanitize (pyStrip stdout)), 1)

/-- The per-segment loop of `Translator.translate_segments` (phase 2).
`i` is the running index (for the wrap message `翻译第{i+1}段...`);
`enabled` is the truthiness of `self.use_local_model and self.model_name`.
Any exception raised for a segment is wrapped per-segment in a
`RuntimeError` chained to its cause, and the loop stops there.  The second
component counts engine invocations performed so far. -/
def translateLoop (enabled : Bool) (engine : String → EngineOut)
    (modelName context : String) :
    ℕ → List Segment → Except PyErr (List Segment) × ℕ
  | _, [] => (.ok [], 0)
  | i, seg :: rest =>
    match seg.text with
    | none =>
      let inner := PyErr.valueError "无效的字幕段格式"
      (.error (.runtimeErrorFrom
        ("翻译第" ++ toString (i + 1) ++ "段文本时发生错误: " ++ pyStrErr inner)
        inner), 0)
    | some txt =>
      let step : Except PyErr String × ℕ :=
        if enabled then translateWithOllama engine modelName context txt
        else (.ok txt, 0)
      match step with
      | (.error e, k) =>
        (.error (.runtimeErrorFrom
          ("翻译第" ++ toString (i + 1) ++ "段文本时发生错误: " ++ pyStrErr e)
          e), k)
      | (.ok tr, k) =>
        match translateLoop enabled engine modelName context (i + 1) rest with
        | (.ok outs, k2) =>
          (.ok ({ start := seg.start, endTime := seg.endTime,
                  original := some txt, translated := some tr } :: outs), k + k2)
        | (.error e, k2) => (.error e, k + k2)

/-- `Translator.translate_segments(segments)` with the engine passed in.
An empty segment list raises `ValueError` before the `try` block (so it is
not wrapped).  If translation is enabled (`use_local_model and model_name`
truthy), phase 1 joins every segment's `text` with `"\n---\n"` into the
context prompt (a missing `text` key raises `KeyError` there, wrapped only
by the outer handler).  Phase 2 is `translateLoop`; an error from it is
wrapped once more by the outer `except` into a `RuntimeError`.  The second
component is the total number of engine invocations performed. -/
def translateSegments (useLocalModel : Bool) (modelName : String)
    (engine : String → EngineOut) (segments : List Segment) :
    Except PyErr (List Segment) × ℕ :=
  if segments.isEmpty then
    (.error (.valueError "输入的字幕段列表为空"), 0)
  else if useLocalModel ∧ ¬ modelName = "" then
    match segments.mapM (fun s => s.text) with
    | none =>
      let inner := PyErr.keyError "\x27text\x27"
      (.error (.runtimeErrorFrom ("翻译过程中发生错误: " ++ pyStrErr inner) inner), 0)
    | some txts =>
      let contextPrompt :=
        "以下是一段对话的全部内容，请先阅读并理解整体上下文：\n" ++
          String.intercalate "\n---\n" txts
      match translateLoop true engine modelName contextPrompt 0 segments with
      | (.ok outs, k) => (.ok outs, k)
      | (.error e, k) =>
        (.error (.runtimeErrorFrom ("翻译过程中发生错误: " ++ pyStrErr e) e), k)
  else
    match translateLoop false engine modelName "" 0 segments with
    | (.ok outs, k) => (.ok outs, k)
    | (.error e, k) =>
      (.error (.runtimeErrorFrom ("翻译过程中发生错误: " ++ pyStrErr e) e), k)

/-- The two transcription backend variants of `AudioTranscriber`. -/
inductive Backend where
  | whisper
  | fasterWhisper
deriving DecidableEq, Repr

/-- The backend dispatch of `AudioTranscriber.transcribe`:
`if self.use_faster_whisper and self.model_path:` — faster-whisper is chosen
only when the flag is set and `model_path` is truthy (not `None` and not the
empty string); otherwise the OpenAI Whisper variant runs. -/
def transcribeDispatch (useFasterWhisper : Bool) (modelPath : Option String) :
    Backend :=
  if useFasterWhisper ∧ ¬ (modelPath = none ∨ modelPath = some "") then
    .fasterWhisper
  else
    .whisper

/-- A raw segment as produced by a transcription engine (result["segments"]
entries / faster-whisper segment objects). -/
structure RawSeg where
  start : ℚ
  endTime : ℚ
  text : String
deriving DecidableEq, Repr

/-- Decidable equality for `Except`, used to evaluate run outcomes on
concrete inputs. -/
instance {ε α : Type} [DecidableEq ε] [DecidableEq α] :
    DecidableEq (Except ε α) := fun a b =>
  match a, b with
  | .ok x, .ok y =>
    if h : x = y then .isTrue (congrArg _ h)
    else .isFalse (fun hh => h (Except.ok.inj hh))
  | .error x, .error y =>
    if h : x = y then .isTrue (congrArg _ h)
    else .isFalse (fun hh => h (Except.error.inj hh))
  | .ok _, .error _ => .isFalse (fun hh => Except.noConfusion hh)
  | .error _, .ok _ => .isFalse (fun hh => Except.noConfusion hh)

/-- Environment of one `AudioTranscriber.transcribe_with_whisper` run:
whether the audio file exists, whether the `whisper` module can be imported
inside the `try` block, and the outcome of the model load + transcribe call
(its raw segment list, or the exception it raises). -/
structure WhisperEnv where
  fileExists : Bool
  whisperImportable : Bool
  modelResult : Except PyErr (List RawSeg)
deriving DecidableEq, Repr

/-- `AudioTranscriber.transcribe_with_whisper(audio_path)`.
A missing file raises `FileNotFoundError` before the `try` block.  Inside
the `try`, a failing `import whisper` raises `ModuleNotFoundError`, and the
model call may raise; the catch-all `except Exception` wraps either in
`RuntimeError(f"Whisper转录过程中发生错误: {str(e)}") from e`.  On success the
raw segments become `{start, end, text: text.strip()}` records, and after
each append progress `int((i+1)/total_segments*100)` is reported.  Returns
the outcome and the list of progress values delivered. -/
def transcribeWithWhisper (env : WhisperEnv) (audioPath : String) :
    Except PyErr (List Segment) × List ℤ :=
  if ¬ env.fileExists then
    (.error (.fileNotFoundError ("音频文件不存在: " ++ audioPath)), [])
  else if ¬ env.whisperImportable then
    let inner := PyErr.moduleNotFoundError
      "OpenAI Whisper模型未安装，请先运行: pip install openai-whisper"
    (.error (.runtimeErrorFrom ("Whisper转录过程中发生错误: " ++ pyStrErr inner) inner), [])
  else
    match env.modelResult with
    | .error e =>
      (.error (.runtimeErrorFrom ("Whisper转录过程中发生错误: " ++ pyStrErr e) e), [])
    | .ok raw =>
      let total := raw.length
      let segs := raw.map fun r =>
        ({ start := r.start, endTime := r.endTime,
           text := some (pyStrip r.text) } : Segment)
      let progress := (List.range total).map fun i =>
        pyInt ((i + 1 : ℚ) / (total : ℚ) * 100)
      (.ok segs, progress)

/-- Environment of one `AudioTranscriber.transcribe_with_faster_whisper`
run: whether the audio file exists, and the outcome of the model load +
transcribe call — a raw segment list together with `info.duration`, or the
exception it raises. -/
structure FasterWhisperEnv where
  fileExists : Bool
  modelResult : Except PyErr (List RawSeg × ℚ)
deriving DecidableEq, Repr

/-- `AudioTranscriber.transcribe_with_faster_whisper(audio_path)`.
A missing file raises `FileNotFoundError` before the `try` block; any model
failure is wrapped by the catch-all into a chained `RuntimeError`.  On
success each raw segment becomes `{start, end, text: text.strip()}`, and
after each append progress `int(segment.end / total_duration * 100)` is
reported — with no clamping.  Returns the outcome and the list of progress
values delivered. -/
def transcribeWithFasterWhisper (env : FasterWhisperEnv) (audioPath : String) :
    Except PyErr (List Segment) × List ℤ :=
  if ¬ env.fileExists then
    (.error (.fileNotFoundError ("音频文件不存在: " ++ audioPath)), [])
  else
    match env.modelResult with
    | .error e =>
      (.error (.runtimeErrorFrom ("faster-whisper转录过程中发生错误: " ++ pyStrErr e) e), [])
    | .ok (raw, totalDuration) =>
      let segs := raw.map fun r =>
        ({ start := r.start, endTime := r.endTime,
           text := some (pyStrip r.text) } : Segment)
      let progress := raw.map fun r => pyInt (r.endTime / totalDuration * 100)
      (.ok segs, progress)

/-- Zero-padding of a natural number to `w` digits, modelling the Python
format specifiers `{:02d}` and `{:03d}` for non-negative values. -/
def padNum (w : ℕ) (n : ℕ) : String :=
  let s := toString n
  String.mk (List.replicate (w - s.length) '0') ++ s

/-- `SubtitleGenerator._format_time`, on a total number of microseconds
(the value held by `timedelta(seconds=seconds)` for a non-negative input).
`td.seconds` is the in-day seconds component `(us / 10^6) % 86400` — the
day component of the timedelta is never read — and `td.microseconds` is
`us % 10^6`; milliseconds are truncated from the microseconds. -/
def formatTime (us : ℕ) : String :=
  let tdSeconds := us / 1000000 % 86400
  let tdMicroseconds := us % 1000000
  let hours := tdSeconds / 3600
  let minutes := tdSeconds % 3600 / 60
  let secs := tdSeconds % 60
  let milliseconds := tdMicroseconds / 1000
  padNum 2 hours ++ ":" ++ padNum 2 minutes ++ ":" ++ padNum 2 secs ++ "," ++
    padNum 3 milliseconds

/-- Conversion of a non-negative seconds value to the microsecond count
held by `timedelta(seconds=x)`: rounding to the nearest microsecond.  (For
Python float inputs this agrees with `timedelta`'s rounding, since no float
lies exactly halfway between two microsecond values; the claims' inputs are
exact.) -/
def musOfSeconds (q : ℚ) : ℕ :=
  (⌊q * 1000000 + 1 / 2⌋).toNat

/-- `SubtitleGenerator._format_time` on a seconds value. -/
def formatTimeQ (q : ℚ) : String :=
  formatTime (musOfSeconds q)

/-- Python `str.rfind`: highest index of `c` in `l`, or `-1` if absent. -/
def pyRfindAux (c : Char) : List Char → ℕ → ℤ → ℤ
  | [], _, acc => acc
  | x :: xs, i, acc => pyRfindAux c xs (i + 1) (if x = c then (i : ℤ) else acc)

/-- Python `str.rfind` on a character list. -/
def pyRfind (l : List Char) (c : Char) : ℤ :=
  pyRfindAux c l 0 (-1)

/-- The stem component of `os.path.splitext(p)` (posix variant; the nt
variant additionally treats the backslash as a separator, which none of the
claims' paths contain).  The extension starts at the last dot after the
last path separator, provided some non-dot character of the basename
precedes it; otherwise the whole path is the stem. -/
def splitextStem (p : String) : String :=
  let l := p.toList
  let sepIndex := pyRfind l '/'
  let dotIndex := pyRfind l '.'
  if sepIndex < dotIndex then
    let start := (sepIndex + 1).toNat
    let between := (l.drop start).take (dotIndex.toNat - start)
    if between.any (fun ch => ¬ ch = '.') then
      String.mk (l.take dotIndex.toNat)
    else p
  else p

/-- The text-line selection of `SubtitleGenerator.generate_srt`:
`if self.use_translation and "translated" in segment: ... elif "original"
in segment: ... else: segment["text"]`.  A `none` result models the
`KeyError` of the final branch when the `text` key is absent. -/
def selectText (useTranslation : Bool) (seg : Segment) : Option String :=
  if useTranslation ∧ seg.translated.isSome then seg.translated
  else if seg.original.isSome then seg.original
  else seg.text

/-- The block-writing loop of `SubtitleGenerator.generate_srt`: for the
segment at (0-based) index `i` of `n` total, write the 1-based number, the
time-range line, the selected text line and a blank line, then report
progress `int((i+1)/n*100)`.  Returns the concatenated blocks and the
progress list, or `none` if a segment raises `KeyError`. -/
def srtBlocks (useTranslation : Bool) (n : ℕ) :
    ℕ → List Segment → Option (String × List ℤ)
  | _, [] => some ("", [])
  | i, seg :: rest =>
    match selectText useTranslation seg with
    | none => none
    | some line =>
      match srtBlocks useTranslation n (i + 1) rest with
      | none => none
      | some (s, ps) =>
        some (toString (i + 1) ++ "\n" ++
              formatTimeQ seg.start ++ " --> " ++ formatTimeQ seg.endTime ++ "\n" ++
              line ++ "\n" ++ "\n" ++ s,
              pyInt ((i + 1 : ℚ) / (n : ℚ) * 100) :: ps)

/-- `SubtitleGenerator.generate_srt`: the output path is the caller's
output path with its extension replaced by `.srt`
(`os.path.splitext(self.output_path)[0] + ".srt"`); the file content is the
concatenation of the per-segment blocks.  Returns
(path, file content, progress list), or `none` on `KeyError`. -/
def generateSrt (segments : List Segment) (outputPath : String)
    (useTranslation : Bool) : Option (String × String × List ℤ) :=
  let srtPath := splitextStem outputPath ++ ".srt"
  (srtBlocks useTranslation segments.length 0 segments).map
    (fun r => (srtPath, r.1, r.2))

/-- Claim C2: For every non-negative seconds value s, `_format_time(s)` is claimed
to return HH:MM:SS,mmm with hours not capped at 24, so that s = 90000.0
yields "25:00:00,000".  The code computes hours from `td.seconds`, which
drops the day component of the timedelta, so 90000.0 seconds renders as
"01:00:00,000", not "25:00:00,000". -/
theorem format_time_day_overflow_bug :
    formatTimeQ (90000 : ℚ) = "01:00:00,000" ∧
    ¬ formatTimeQ (90000 : ℚ) = "25:00:00,000" ∧
    formatTime 90000000000 = "01:00:00,000" := by
  have hm : musOfSeconds (90000 : ℚ) = 90000000000 := by
    unfold musOfSeconds
    norm_num
    decide
  have h : formatTimeQ (90000 : ℚ) = "01:00:00,000" := by
    unfold formatTimeQ
    rw [hm]
    decide
  refine ⟨h, by rw [h]; decide, by decide⟩

/-- Claim C3: the faster-whisper variant is claimed to clamp its duration-based
progress values to [0,100] and to end at exactly 100.  The code reports
`int(segment.end / total_duration * 100)` unclamped: a successful run whose
segment ends at 10.5 of a 10-second duration delivers progress 105 > 100,
and a successful run whose last segment ends at 9.0 of 10.0 delivers a
final progress of 90 ≠ 100. -/
theorem faster_whisper_progress_unclamped_bug :
    (transcribeWithFasterWhisper
        { fileExists := true,
          modelResult := .ok ([{ start := 10, endTime := 21/2, text := "over" }], 10) }
        "audio.wav") =
      (.ok [{ start := 10, endTime := 21/2, text := some "over" }], [105]) ∧
    ¬ (105 : ℤ) ≤ 100 ∧
    (transcribeWithFasterWhisper
        { fileExists := true,
          modelResult := .ok ([{ start := 0, endTime := 9, text := "last" }], 10) }
        "audio.wav") =
      (.ok [{ start := 0, endTime := 9, text := some "last" }], [90]) ∧
    ¬ (90 : ℤ) = 100 := by
  have h1 : pyInt ((21 / 2 : ℚ) / 10 * 100) = 105 := by
    unfold pyInt
    norm_num
  have h2 : pyInt ((9 : ℚ) / 10 * 100) = 90 := by
    unfold pyInt
    norm_num
  refine ⟨?_, by decide, ?_, by decide⟩
  · simp only [transcribeWithFasterWhisper, List.map]
    norm_num [pyInt]
    decide
  · simp only [transcribeWithFasterWhisper, List.map]
    norm_num [pyInt]
    decide

/-- Claim C9: with an existing audio file and the `whisper` module not importable,
`transcribe_with_whisper` is claimed to fail with the missing-dependency
error kind (`ModuleNotFoundError`, i.e. EngineUnavailable).  In the code the
`ModuleNotFoundError` is raised inside the `try` block, so the catch-all
wraps it: the surfaced exception is the generic `RuntimeError`
(EngineError) chaining the `ModuleNotFoundError` as its cause, and is not a
bare `ModuleNotFoundError` of any message. -/
theorem whisper_missing_module_wrapped_bug :
    transcribeWithWhisper
        { fileExists := true, whisperImportable := false, modelResult := .ok [] }
        "audio.wav" =
      (.error (.runtimeErrorFrom
        "Whisper转录过程中发生错误: OpenAI Whisper模型未安装，请先运行: pip install openai-whisper"
        (.moduleNotFoundError "OpenAI Whisper模型未安装，请先运行: pip install openai-whisper")), []) ∧
    ∀ m, ¬ (transcribeWithWhisper
        { fileExists := true, whisperImportable := false, modelResult := .ok [] }
        "audio.wav").1 = .error (.moduleNotFoundError m) := by
  refine ⟨by decide, ?_⟩
  intro m h
  rw [show (transcribeWithWhisper
      { fileExists := true, whisperImportable := false, modelResult := .ok [] }
      "audio.wav").1 =
      .error (.runtimeErrorFrom
        "Whisper转录过程中发生错误: OpenAI Whisper模型未安装，请先运行: pip install openai-whisper"
        (.moduleNotFoundError "OpenAI Whisper模型未安装，请先运行: pip install openai-whisper"))
    from by decide] at h
  exact PyErr.noConfusion (Except.error.inj h)

/-- Claim C10: `AudioTranscriber.transcribe` uses the faster-whisper variant only
when `use_faster_whisper` is set and `model_path` is truthy; with a missing
(`None` or empty) `model_path` it silently falls back to the OpenAI Whisper
variant. -/
theorem transcribe_dispatch_fallback :
    (∀ ufw : Bool, transcribeDispatch ufw none = Backend.whisper ∧
      transcribeDispatch ufw (some "") = Backend.whisper) ∧
    (∀ (ufw : Bool) (mp : Option String),
      transcribeDispatch ufw mp = Backend.fasterWhisper ↔
        (ufw = true ∧ ¬ mp = none ∧ ¬ mp = some "")) := by
  constructor
  · intro ufw
    cases ufw <;> exact ⟨by decide, by decide⟩
  · intro ufw mp
    unfold transcribeDispatch
    by_cases h : (ufw = true) ∧ ¬ (mp = none ∨ mp = some "")
    · rw [if_pos h]
      exact iff_of_true rfl ⟨h.1, fun hn => h.2 (Or.inl hn), fun hs => h.2 (Or.inr hs)⟩
    · rw [if_neg h]
      refine iff_of_false (fun hcon => Backend.noConfusion hcon) ?_
      intro hcon
      exact absurd ⟨hcon.1, fun hor => hor.elim hcon.2.1 hcon.2.2⟩ h

/-- Claim C7: the subtitle writer's per-segment text line: if translated output is
requested and the segment carries a `translated` field, it is emitted; else
a carried `original` field is emitted (even when translated output was
requested); else `text` is emitted. -/
theorem select_text_policy (u : Bool) (seg : Segment) :
    (∀ t, u = true → seg.translated = some t → selectText u seg = some t) ∧
    ((u = false ∨ seg.translated = none) → ¬ seg.original = none →
      selectText u seg = seg.original) ∧
    ((u = false ∨ seg.translated = none) → seg.original = none →
      selectText u seg = seg.text) := by
  refine ⟨?_, ?_, ?_⟩
  · intro t hu ht
    unfold selectText
    rw [if_pos ⟨hu, by rw [ht]; rfl⟩]
    exact ht
  · intro hdis ho
    unfold selectText
    rw [if_neg, if_pos (Option.isSome_iff_ne_none.mpr ho)]
    intro hcon
    rcases hdis with hu | ht
    · rw [hu] at hcon
      exact Bool.false_ne_true hcon.1
    · rw [ht] at hcon
      exact Bool.false_ne_true hcon.2
  · intro hdis ho
    unfold selectText
    rw [if_neg, if_neg]
    · rw [ho]
      intro hcon
      exact Bool.false_ne_true hcon
    · intro hcon
      rcases hdis with hu | ht
      · rw [hu] at hcon
        exact Bool.false_ne_true hcon.1
      · rw [ht] at hcon
        exact Bool.false_ne_true hcon.2

/-- Concrete instances of the text-line selection policy, obtained from
`select_text_policy`: a translated segment emits `translated` when
requested; with translation requested but no `translated` field, `original`
is emitted; with neither, `text` is emitted. -/
theorem select_text_policy_witness :
    selectText true
        { start := 0, endTime := 1, text := some "t",
          original := some "o", translated := some "译" } = some "译" ∧
    selectText true
        { start := 0, endTime := 1, text := some "t",
          original := some "o" } = some "o" ∧
    selectText true { start := 0, endTime := 1, text := some "t" } = some "t" := by
  refine ⟨(select_text_policy true _).1 "译" rfl rfl, ?_, ?_⟩
  · exact (select_text_policy true
      { start := 0, endTime := 1, text := some "t",
        original := some "o" }).2.1 (Or.inr rfl) (by decide)
  · exact (select_text_policy true
      { start := 0, endTime := 1, text := some "t" }).2.2 (Or.inr rfl) rfl

/-- Claim C8: for the single-segment store [{start:0.0, end:2.5, text:"Hello"}]
with translation disabled, `generate_srt` produces exactly the content
"1\n00:00:00,000 --> 00:00:02,500\nHello\n\n" (the four lines "1", the
time range, "Hello", and a blank line), at the caller-supplied output path
with its extension replaced by ".srt", returning that path; in particular
output path "video.mp4" yields "video.srt". -/
theorem generate_srt_scenario :
    (∀ outPath : String,
      generateSrt [{ start := 0, endTime := 5/2, text := some "Hello" }] outPath false =
        some (splitextStem outPath ++ ".srt",
              "1\n00:00:00,000 --> 00:00:02,500\nHello\n\n", [100])) ∧
    splitextStem "video.mp4" ++ ".srt" = "video.srt" := by
  have h0 : formatTimeQ (0 : ℚ) = "00:00:00,000" := by
    have : musOfSeconds (0 : ℚ) = 0 := by
      unfold musOfSeconds
      norm_num
    unfold formatTimeQ
    rw [this]
    decide
  have h25 : formatTimeQ (5/2 : ℚ) = "00:00:02,500" := by
    have : musOfSeconds (5/2 : ℚ) = 2500000 := by
      unfold musOfSeconds
      norm_num
      decide
    unfold formatTimeQ
    rw [this]
    decide
  constructor
  · intro p
    unfold generateSrt
    simp only [srtBlocks, selectText, List.length_cons, List.length_nil, h0, h25]
    norm_num [pyInt]
    decide
  · decide

/-- The disabled-translation loop (`use_local_model and model_name` falsy):
every well-formed segment is copied with `translated` and `original` both
set to its `text`, with zero engine invocations. -/
theorem translateLoop_disabled (engine : String → EngineOut) (m ctx : String) :
    ∀ (i : ℕ) (segs : List Segment), (∀ s ∈ segs, (s.text).isSome = true) →
    translateLoop false engine m ctx i segs =
      (.ok (segs.map fun s =>
        ({ start := s.start, endTime := s.endTime,
           original := s.text, translated := s.text } : Segment)), 0) := by
  intro i segs
  induction segs generalizing i with
  | nil => intro _; rfl
  | cons seg rest ih =>
    intro h
    obtain ⟨txt, htxt⟩ := Option.isSome_iff_exists.mp (h seg (List.mem_cons_self _ _))
    simp only [translateLoop, htxt]
    rw [ih (i + 1) (fun s hs => h s (List.mem_cons_of_mem _ hs))]
    simp [htxt]

/-- Claim C6 (amended): whenever translation is disabled or no engine name
is configured, `translate_segments` performs zero engine invocations and
sets both `translated` and `original` equal to each segment's `text` — for
every non-empty store of well-formed segments.  (The empty store does not
take this path: it raises `ValueError` up front, see the counterexample.) -/
theorem translate_segments_disabled_path (u : Bool) (m : String)
    (engine : String → EngineOut) (segs : List Segment)
    (hdis : u = false ∨ m = "") (hne : ¬ segs = [])
    (htext : ∀ s ∈ segs, (s.text).isSome = true) :
    translateSegments u m engine segs =
      (.ok (segs.map fun s =>
        ({ start := s.start, endTime := s.endTime,
           original := s.text, translated := s.text } : Segment)), 0) := by
  unfold translateSegments
  rw [if_neg (by simpa using hne), if_neg, translateLoop_disabled engine m "" 0 segs htext]
  intro hcon
  rcases hdis with hu | hm
  · rw [hu] at hcon
    exact Bool.false_ne_true hcon.1
  · exact hcon.2 hm

/-- Instance of the disabled-translation path at a concrete store: with
`use_local_model` set but no model name, the single-segment store maps to
`translated = original = text` with zero engine invocations. -/
theorem translate_segments_disabled_path_witness :
    translateSegments true "" (fun _ => .ok "response")
        [{ start := 0, endTime := 1, text := some "hi" }] =
      (.ok [{ start := 0, endTime := 1, text := none,
              original := some "hi", translated := some "hi" }], 0) := by
  have h := translate_segments_disabled_path true "" (fun _ => .ok "response")
    [{ start := 0, endTime := 1, text := some "hi" }]
    (Or.inr rfl) (by decide) (by decide)
  simpa using h

/-- Counterexample to claim C6 as stated: the translation-disabled path is
not "always succeeding for every input store including the empty one" —
`translate_segments` on the empty store raises `ValueError` (the empty-list
guard) and returns no segment list. -/
theorem translate_segments_empty_store_fails :
    translateSegments false "" (fun _ => .ok "response") [] =
      (.error (.valueError "输入的字幕段列表为空"), 0) ∧
    ∀ out : List Segment,
      ¬ (translateSegments false "" (fun _ => .ok "response") []).1 = .ok out := by
  refine ⟨rfl, ?_⟩
  intro out h
  exact Except.noConfusion
    (show Except.error (PyErr.valueError "输入的字幕段列表为空") = Except.ok out from h)

/-- Every well-formed segment list has a defined phase-1 context: `mapM`
over present `text` fields succeeds. -/
theorem mapM_text_eq_some (segs : List Segment)
    (h : ∀ s ∈ segs, (s.text).isSome = true) :
    ∃ txts, segs.mapM (fun s => s.text) = some txts := by
  induction segs with
  | nil => exact ⟨[], rfl⟩
  | cons seg rest ih =>
    obtain ⟨t, ht⟩ := Option.isSome_iff_exists.mp (h seg (List.mem_cons_self _ _))
    obtain ⟨txts, htxts⟩ := ih (fun s hs => h s (List.mem_cons_of_mem _ hs))
    refine ⟨t :: txts, ?_⟩
    rw [List.mapM_cons, ht, htxts]
    rfl

/-- Phase 2 over a store `pre ++ blank :: rest`: when every segment of
`pre` has non-blank text and every engine invocation returns a non-empty
response, the loop reaches the blank segment after exactly one engine
invocation per `pre` segment, and aborts there with the per-segment-wrapped
`ValueError` (blank input text), performing no further invocations. -/
theorem translateLoop_blank_after_prefix (engine : String → EngineOut)
    (m ctx : String) (hm : ¬ m = "")
    (hengine : ∀ p, ∃ out, engine p = .ok out ∧ ¬ (out = "" ∨ pyStrip out = "")) :
    ∀ (i : ℕ) (pre : List Segment) (blank : Segment) (rest : List Segment)
      (b : String),
    (∀ s ∈ pre, ∃ t, s.text = some t ∧ ¬ (t = "" ∨ pyStrip t = "")) →
    blank.text = some b → (b = "" ∨ pyStrip b = "") →
    ∃ e, translateLoop true engine m ctx i (pre ++ blank :: rest) =
      (.error e, pre.length) ∧ rootCause e = .valueError "输入文本为空" := by
  intro i pre
  induction pre generalizing i with
  | nil =>
    intro blank rest b hpre hblank hb
    have hstep : translateWithOllama engine m ctx b =
        (.error (.valueError "输入文本为空"), 0) := by
      unfold translateWithOllama
      rw [if_pos hb]
    refine ⟨.runtimeErrorFrom
      ("翻译第" ++ toString (i + 1) ++ "段文本时发生错误: " ++ "输入文本为空")
      (.valueError "输入文本为空"), ?_, rfl⟩
    simp only [List.nil_append, translateLoop, hblank]
    rw [hstep]
    rfl
  | cons p pre2 ih =>
    intro blank rest b hpre hblank hb
    obtain ⟨t, ht, hvalid⟩ := hpre p (List.mem_cons_self _ _)
    obtain ⟨out, hout, houtne⟩ := hengine (ollamaPrompt ctx t)
    obtain ⟨e, hrec, hroot⟩ := ih (i + 1) blank rest b
      (fun s hs => hpre s (List.mem_cons_of_mem _ hs)) hblank hb
    refine ⟨e, ?_, hroot⟩
    have hstep : translateWithOllama engine m ctx t =
        (.ok (sanitize (pyStrip out)), 1) := by
      unfold translateWithOllama
      rw [if_neg hvalid, if_neg hm, hout]
      dsimp only
      rw [if_neg houtne]
    simp only [List.cons_append, translateLoop, ht]
    rw [hstep]
    simp only [if_true, List.append_eq]
    rw [hrec]
    simp [List.length_cons, Nat.add_comm]

/-- Claim C4 (amended): for every segment list of the form
`pre ++ blank :: rest` — valid (present, non-blank) texts in `pre`, the
`blank` segment's text empty or blank, any well-formed remainder — and
translation enabled, when every engine invocation returns a non-empty
response, `translate_segments` fails the whole store with an error rooted
in `ValueError` (the InvalidSegment kind), after exactly one engine
invocation per earlier valid segment and none for the blank segment or any
later segment.  In particular for the single-segment store `[{text:""}]`
zero engine invocations occur (first instance of the witness).  Without the
engine-success proviso an earlier segment's failing engine call aborts the
store with a `CalledProcessError`-rooted error before the blank segment is
examined. -/
theorem translate_blank_segment_invalid (engine : String → EngineOut)
    (m : String) (hm : ¬ m = "")
    (pre : List Segment) (blank : Segment) (rest : List Segment) (b : String)
    (hpre : ∀ s ∈ pre, ∃ t, s.text = some t ∧ ¬ (t = "" ∨ pyStrip t = ""))
    (hblank : blank.text = some b) (hb : b = "" ∨ pyStrip b = "")
    (hrest : ∀ s ∈ rest, (s.text).isSome = true)
    (hengine : ∀ p, ∃ out, engine p = .ok out ∧ ¬ (out = "" ∨ pyStrip out = "")) :
    ∃ e, translateSegments true m engine (pre ++ blank :: rest) =
      (.error e, pre.length) ∧ rootCause e = .valueError "输入文本为空" := by
  have hall : ∀ s ∈ pre ++ blank :: rest, (s.text).isSome = true := by
    intro s hs
    rcases List.mem_append.mp hs with hsp | hsc
    · obtain ⟨t, ht, _⟩ := hpre s hsp
      rw [ht]
      rfl
    · rcases List.mem_cons.mp hsc with rfl | hsr
      · rw [hblank]
        rfl
      · exact hrest s hsr
  obtain ⟨txts, hmap⟩ := mapM_text_eq_some _ hall
  obtain ⟨e, hloop, hroot⟩ := translateLoop_blank_after_prefix engine m
    ("以下是一段对话的全部内容，请先阅读并理解整体上下文：\n" ++
      String.intercalate "\n---\n" txts)
    hm hengine 0 pre blank rest b hpre hblank hb
  have hne : ¬ (pre ++ blank :: rest).isEmpty = true := by simp
  refine ⟨.runtimeErrorFrom ("翻译过程中发生错误: " ++ pyStrErr e) e, ?_, ?_⟩
  · unfold translateSegments
    rw [if_neg hne, if_pos ⟨rfl, hm⟩, hmap]
    dsimp only
    rw [hloop]
  · simpa only [rootCause] using hroot

/-- Instances of `translate_blank_segment_invalid`: the single-segment
blank store fails with zero engine invocations, and a blank segment after
one valid segment fails with exactly one engine invocation. -/
theorem translate_blank_segment_invalid_witness :
    (∃ e, translateSegments true "gemma" (fun _ => .ok "你好")
        [{ start := 0, endTime := 1, text := some "" }] =
      (.error e, 0) ∧ rootCause e = .valueError "输入文本为空") ∧
    (∃ e, translateSegments true "gemma" (fun _ => .ok "你好")
        [{ start := 0, endTime := 1, text := some "Hello" },
         { start := 1, endTime := 2, text := some "" }] =
      (.error e, 1) ∧ rootCause e = .valueError "输入文本为空") := by
  constructor
  · exact translate_blank_segment_invalid (fun _ => .ok "你好") "gemma" (by decide)
      [] { start := 0, endTime := 1, text := some "" } [] ""
      (fun s hs => absurd hs (List.not_mem_nil s))
      rfl (Or.inl rfl)
      (fun s hs => absurd hs (List.not_mem_nil s))
      (fun p => ⟨"你好", rfl, by decide⟩)
  · exact translate_blank_segment_invalid (fun _ => .ok "你好") "gemma" (by decide)
      [{ start := 0, endTime := 1, text := some "Hello" }]
      { start := 1, endTime := 2, text := some "" } [] ""
      (by
        intro s hs
        rw [List.mem_singleton] at hs
        subst hs
        exact ⟨"Hello", rfl, by decide⟩)
      rfl (Or.inl rfl)
      (fun s hs => absurd hs (List.not_mem_nil s))
      (fun p => ⟨"你好", rfl, by decide⟩)

/-- Counterexample to claim C4 as stated: a blank segment does not fail the
store "before any translation-engine invocation is performed" — in the
two-segment store whose second text is empty, the first segment's engine
invocation happens (count 1, not 0) before the `ValueError`-rooted failure. -/
theorem translate_blank_after_engine_invocation :
    (translateSegments true "gemma" (fun _ => .ok "你好")
        [{ start := 0, endTime := 1, text := some "Hello" },
         { start := 1, endTime := 2, text := some "" }]).2 = 1 ∧
    ¬ (translateSegments true "gemma" (fun _ => .ok "你好")
        [{ start := 0, endTime := 1, text := some "Hello" },
         { start := 1, endTime := 2, text := some "" }]).2 = 0 ∧
    (translateSegments true "gemma" (fun _ => .ok "你好")
        [{ start := 0, endTime := 1, text := some "Hello" },
         { start := 1, endTime := 2, text := some "" }]).1 =
      .error (.runtimeErrorFrom
        "翻译过程中发生错误: 翻译第2段文本时发生错误: 输入文本为空"
        (.runtimeErrorFrom "翻译第2段文本时发生错误: 输入文本为空"
          (.valueError "输入文本为空"))) := by
  refine ⟨by decide, by decide, by decide⟩

/-- Whenever phase 2 of `translate_segments` succeeds, its output is
positionally related to the input: same order and count, `start`/`end`
preserved, `original` set to the input's `text`, a `translated` value
attached, and no `text` key on the output records. -/
theorem translateLoop_ok_shape (enabled : Bool) (engine : String → EngineOut)
    (m ctx : String) :
    ∀ (i : ℕ) (segs out : List Segment) (k : ℕ),
    translateLoop enabled engine m ctx i segs = (.ok out, k) →
    List.Forall₂ (fun o s =>
      o.start = s.start ∧ o.endTime = s.endTime ∧
      o.original = s.text ∧ (o.translated).isSome = true ∧ o.text = none)
      out segs := by
  intro i segs
  induction segs generalizing i with
  | nil =>
    intro out k h
    simp only [translateLoop, Prod.mk.injEq, Except.ok.injEq] at h
    rw [← h.1]
    exact List.Forall₂.nil
  | cons seg rest ih =>
    intro out k h
    cases htxt : seg.text with
    | none =>
      simp only [translateLoop, htxt, Prod.mk.injEq] at h
      exact absurd h.1 (fun hcon => Except.noConfusion hcon)
    | some txt =>
      simp only [translateLoop, htxt] at h
      rcases hstep : (if enabled = true
          then translateWithOllama engine m ctx txt
          else ((Except.ok txt : Except PyErr String), 0)) with ⟨se, sk⟩
      rw [hstep] at h
      cases se with
      | error e =>
        simp only [Prod.mk.injEq] at h
        exact absurd h.1 (fun hcon => Except.noConfusion hcon)
      | ok tr =>
        rcases hrec : translateLoop enabled engine m ctx (i + 1) rest with ⟨re, rk⟩
        rw [hrec] at h
        cases re with
        | error e =>
          simp only [Prod.mk.injEq] at h
          exact absurd h.1 (fun hcon => Except.noConfusion hcon)
        | ok outs =>
          simp only [Prod.mk.injEq, Except.ok.injEq] at h
          rw [← h.1]
          exact List.Forall₂.cons ⟨rfl, rfl, htxt.symm, rfl, rfl⟩ (ih (i + 1) outs rk hrec)

/-- Claim C1 (amended): every successful `translate_segments` run returns a
store with the same number of segments in the same order, each output
segment keeping its input's `start` and `end`, with `original` equal to the
pre-translation `text` and a `translated` value attached — but the output
records carry no `text` key (the store is rebuilt as new records, not
mutated in place; see the counterexample). -/
theorem translate_segments_frame (u : Bool) (m : String)
    (engine : String → EngineOut) (segs out : List Segment) (k : ℕ)
    (h : translateSegments u m engine segs = (.ok out, k)) :
    out.length = segs.length ∧
    List.Forall₂ (fun o s =>
      o.start = s.start ∧ o.endTime = s.endTime ∧
      o.original = s.text ∧ (o.translated).isSome = true ∧ o.text = none)
      out segs := by
  have hshape : List.Forall₂ (fun o s =>
      o.start = s.start ∧ o.endTime = s.endTime ∧
      o.original = s.text ∧ (o.translated).isSome = true ∧ o.text = none)
      out segs := by
    unfold translateSegments at h
    by_cases hempty : segs.isEmpty = true
    · rw [if_pos hempty] at h
      exact absurd (Prod.mk.injEq .. ▸ h).1 (fun hcon => Except.noConfusion hcon)
    · rw [if_neg hempty] at h
      by_cases hcond : (u = true ∧ ¬ m = "")
      · rw [if_pos hcond] at h
        cases hmap : segs.mapM (fun s => s.text) with
        | none =>
          rw [hmap] at h
          exact absurd (Prod.mk.injEq .. ▸ h).1 (fun hcon => Except.noConfusion hcon)
        | some txts =>
          rw [hmap] at h
          dsimp only at h
          rcases hloop : translateLoop true engine m
              ("以下是一段对话的全部内容，请先阅读并理解整体上下文：\n" ++
                String.intercalate "\n---\n" txts) 0 segs with ⟨le, lk⟩
          rw [hloop] at h
          cases le with
          | error e =>
            simp only [Prod.mk.injEq] at h
            exact absurd h.1 (fun hcon => Except.noConfusion hcon)
          | ok outs =>
            simp only [Prod.mk.injEq, Except.ok.injEq] at h
            rw [← h.1]
            exact translateLoop_ok_shape true engine m _ 0 segs outs lk hloop
      · rw [if_neg hcond] at h
        rcases hloop : translateLoop false engine m "" 0 segs with ⟨le, lk⟩
        rw [hloop] at h
        cases le with
        | error e =>
          simp only [Prod.mk.injEq] at h
          exact absurd h.1 (fun hcon => Except.noConfusion hcon)
        | ok outs =>
          simp only [Prod.mk.injEq, Except.ok.injEq] at h
          rw [← h.1]
          exact translateLoop_ok_shape false engine m "" 0 segs outs lk hloop
  exact ⟨hshape.length_eq, hshape⟩

/-- Instance of `translate_segments_frame` at a concrete successful run. -/
theorem translate_segments_frame_witness :
    [({ start := 0, endTime := 1, text := none,
        original := some "hi", translated := some "hi" } : Segment)].length =
      [({ start := 0, endTime := 1, text := some "hi" } : Segment)].length ∧
    List.Forall₂ (fun o s =>
      o.start = s.start ∧ o.endTime = s.endTime ∧
      o.original = s.text ∧ (o.translated).isSome = true ∧ o.text = none)
      [({ start := 0, endTime := 1, text := none,
          original := some "hi", translated := some "hi" } : Segment)]
      [({ start := 0, endTime := 1, text := some "hi" } : Segment)] :=
  translate_segments_frame false "" (fun _ => .ok "response")
    [{ start := 0, endTime := 1, text := some "hi" }]
    [{ start := 0, endTime := 1, text := none,
       original := some "hi", translated := some "hi" }] 0 (by decide)

/-- Counterexample to claim C1 as stated: the store is not mutated in place
keeping `text` unchanged — a successful run returns rebuilt records that
drop the `text` key: the output segment's `text` differs from the input
segment's `text`. -/
theorem translate_segments_rebuilds_counterexample :
    translateSegments false "" (fun _ => .ok "response")
        [{ start := 0, endTime := 1, text := some "hi" }] =
      (.ok [{ start := 0, endTime := 1, text := none,
              original := some "hi", translated := some "hi" }], 0) ∧
    ¬ ({ start := 0, endTime := 1, text := none, original := some "hi",
         translated := some "hi" } : Segment).text =
      ({ start := 0, endTime := 1, text := some "hi" } : Segment).text := by
  refine ⟨by decide, by decide⟩

/-- Characterization of the punctuation allow-list membership test. -/
theorem isPunctChar_iff (c : Char) :
    isPunctChar c = true ↔ c.toNat ∈ allowedPunctCodes := by
  simp [isPunctChar, List.contains]

/-- The sanitization character class is disjoint from Python's whitespace
set: no allowed character is stripped by `str.strip()`. -/
theorem isAllowedChar_not_space (c : Char) (h : isAllowedChar c = true) :
    pyIsSpace c = false := by
  rw [Bool.eq_false_iff]
  intro hs
  simp only [isAllowedChar, Bool.or_eq_true, Bool.and_eq_true,
    decide_eq_true_eq, isPunctChar_iff, allowedPunctCodes, List.mem_cons,
    List.not_mem_nil, or_false] at h
  simp only [pyIsSpace, Bool.or_eq_true, Bool.and_eq_true, decide_eq_true_eq,
    beq_iff_eq] at hs
  omega

/-- Every character surviving sanitization belongs to the allowed class. -/
theorem mem_sanitizeL_allowed (l : List Char) (c : Char) (hc : c ∈ sanitizeL l) :
    isAllowedChar c = true := by
  have h1 : c ∈ dropTrailingPunct (l.filter isAllowedChar) := by
    unfold sanitizeL pyStripL at hc
    rw [List.mem_reverse] at hc
    have h2 := (List.dropWhile_sublist _).subset hc
    rw [List.mem_reverse] at h2
    exact (List.dropWhile_sublist _).subset h2
  have h3 : c ∈ l.filter isAllowedChar := by
    unfold dropTrailingPunct at h1
    rcases hlast : (l.filter isAllowedChar).getLast? with _ | d
    · rw [hlast] at h1
      exact h1
    · rw [hlast] at h1
      dsimp only at h1
      by_cases hd : isPunctChar d = true
      · rw [if_pos hd] at h1
        exact (List.dropLast_sublist _).subset h1
      · rw [if_neg hd] at h1
        exact h1
  exact (List.mem_filter.mp h3).2

/-- `str.strip()` is the identity on strings containing no whitespace. -/
theorem pyStripL_eq_self (l : List Char) (h : ∀ c ∈ l, pyIsSpace c = false) :
    pyStripL l = l := by
  have h1 : l.dropWhile pyIsSpace = l := by
    cases l with
    | nil => rfl
    | cons a as =>
      rw [List.dropWhile_cons, h a (List.mem_cons_self _ _)]
      rfl
  have h2 : l.reverse.dropWhile pyIsSpace = l.reverse := by
    cases hr : l.reverse with
    | nil => rfl
    | cons a as =>
      have ha : pyIsSpace a = false := by
        refine h a ?_
        rw [← List.mem_reverse, hr]
        exact List.mem_cons_self _ _
      rw [List.dropWhile_cons, ha]
      rfl
  unfold pyStripL
  rw [h1, h2, List.reverse_reverse]

/-- Dropping a trailing allow-list punctuation character is the identity
when the last character is not such punctuation. -/
theorem dropTrailingPunct_eq_self (l : List Char)
    (h : ∀ c, l.getLast? = some c → isPunctChar c = false) :
    dropTrailingPunct l = l := by
  unfold dropTrailingPunct
  rcases hlast : l.getLast? with _ | d
  · rfl
  · dsimp only
    rw [h d hlast]
    rfl

/-- Claim C5 (amended): the response sanitization is idempotent on every
string whose sanitized form does not end in an allow-list punctuation
character: there `sanitize (sanitize s) = sanitize s`.  (Without that
proviso a second application can drop one more trailing punctuation
character; see the counterexample.) -/
theorem sanitize_idempotent_no_trailing_punct (s : String)
    (h : ∀ c, (sanitize s).toList.getLast? = some c → isPunctChar c = false) :
    sanitize (sanitize s) = sanitize s := by
  have hall : ∀ c ∈ sanitizeL s.toList, isAllowedChar c = true :=
    fun c hc => mem_sanitizeL_allowed s.toList c hc
  have hfilter : (sanitizeL s.toList).filter isAllowedChar = sanitizeL s.toList :=
    List.filter_eq_self.mpr hall
  have hdrop : dropTrailingPunct (sanitizeL s.toList) = sanitizeL s.toList :=
    dropTrailingPunct_eq_self _ (fun c hc => h c hc)
  have hstrip : pyStripL (sanitizeL s.toList) = sanitizeL s.toList :=
    pyStripL_eq_self _ (fun c hc => isAllowedChar_not_space c (hall c hc))
  show String.mk (sanitizeL (String.mk (sanitizeL s.toList)).toList) =
    String.mk (sanitizeL s.toList)
  congr 1
  calc sanitizeL (sanitizeL s.toList)
      = pyStripL (dropTrailingPunct ((sanitizeL s.toList).filter isAllowedChar)) := rfl
    _ = sanitizeL s.toList := by rw [hfilter, hdrop, hstrip]

/-- Instance of `sanitize_idempotent_no_trailing_punct` at a concrete
string whose sanitized form ends in a letter. -/
theorem sanitize_idempotent_no_trailing_punct_witness :
    sanitize (sanitize "你好a") = sanitize "你好a" :=
  sanitize_idempotent_no_trailing_punct "你好a" (by
    intro c hc
    have h2 : (sanitize "你好a").toList.getLast? = some (Char.ofNat 97) := by decide
    rw [h2, Option.some.injEq] at hc
    rw [← hc]
    decide)

/-- Counterexample to claim C5 as stated: sanitization is not idempotent on
every string.  For "a，。" the first pass keeps "a，" (only the final 。 is
dropped), and sanitizing the already-sanitized "a，" drops the now-final
，, yielding "a" ≠ "a，". -/
theorem sanitize_not_idempotent_counterexample :
    sanitize "a，。" = "a，" ∧
    sanitize (sanitize "a，。") = "a" ∧
    ¬ ("a" : String) = "a，" := by
  refine ⟨by decide, by decide, by decide⟩
